import Mathlib

/-!
Verification of the TeamTemp historical scraper (scrapper_api.py, storage_pg.py).

The Python code is shallowly embedded: pure helpers become Lean functions over
`Nat`, `Int`, `Rat`, `String` and `List`; decoded JSON values are modelled by the
inductive `PyVal`; code that can raise a Python exception returns
`Except PyErr _`; wall-clock times are `Nat` seconds; the network round of
`get_data` is modelled by an oracle `scrape : String -> Except PyErr (List Record)`
giving each URL's scrape outcome; CPython `float` results are modelled exactly
by `Rat`.
-/

/-- Python exception kinds relevant to the embedded code paths. -/
inductive PyErr where
  | attributeError
  | typeError
  | keyError
  | indexError
  | valueError
  deriving DecidableEq, Repr

deriving instance DecidableEq for Except

-- ---------------------------------------------------------------------------
-- Character-level helpers shared by the regex embeddings
-- ---------------------------------------------------------------------------

/-- The characters matched by the regex class `\s` (ASCII range, as Python). -/
def pySpaceChar (c : Char) : Bool :=
  decide (c.toNat = 32 ∨ c.toNat = 9 ∨ c.toNat = 10 ∨ c.toNat = 13 ∨
          c.toNat = 11 ∨ c.toNat = 12)

/-- The characters matched by the regex class `[0-9]`. -/
def isDig (c : Char) : Bool :=
  decide (48 ≤ c.toNat ∧ c.toNat ≤ 57)

/-- Numeric value of an ASCII digit character. -/
def digVal (c : Char) : Nat := c.toNat - 48

/-- The ASCII digit character for a value below ten. -/
def digCh (n : Nat) : Char :=
  match n with
  | 0 => '0' | 1 => '1' | 2 => '2' | 3 => '3' | 4 => '4'
  | 5 => '5' | 6 => '6' | 7 => '7' | 8 => '8' | _ => '9'

/-- Value of a digit string read most-significant first (as Python `int`). -/
def digitsVal (l : List Char) : Nat :=
  l.foldl (fun a c => a * 10 + digVal c) 0

/-- `\s*`: drop leading whitespace. -/
def skipSpaces (l : List Char) : List Char := l.dropWhile pySpaceChar

/-- Python `str.strip()` on the character list. -/
def pyStripL (l : List Char) : List Char :=
  ((l.dropWhile pySpaceChar).reverse.dropWhile pySpaceChar).reverse

/-- Python `str.strip()`. -/
def pyStrip (s : String) : String := ⟨pyStripL s.data⟩

/-- Python `str.lower()` (ASCII case folding, character by character). -/
def pyLower (s : String) : String := ⟨s.data.map Char.toLower⟩

/-- Maximal run of `[0-9]+`: the digits taken and the remainder. -/
def digitRun : List Char → List Char × List Char
  | [] => ([], [])
  | c :: rest =>
    if isDig c then
      let (a, b) := digitRun rest
      (c :: a, b)
    else ([], c :: rest)

/-- Match a literal character sequence, returning the remainder. -/
def expectStr : List Char → List Char → Option (List Char)
  | [], l => some l
  | c :: ps, x :: xs => if x = c then expectStr ps xs else none
  | _ :: _, [] => none

/-- Match a literal sequence case-insensitively (pattern given in lowercase). -/
def expectCI : List Char → List Char → Option (List Char)
  | [], l => some l
  | c :: ps, x :: xs => if x.toLower = c then expectCI ps xs else none
  | _ :: _, [] => none

-- ---------------------------------------------------------------------------
-- DATE_STR_RE = ^\s*Date\((\d{4}),\s*(\d{1,2}),\s*(\d{1,2}).*?\)\s*$
-- ---------------------------------------------------------------------------

/-- The trailing `.*?\)\s*$` of `DATE_STR_RE`: some later `)` is preceded only
by non-newline characters and followed only by whitespace. -/
def restCloseOk : List Char → Bool
  | [] => false
  | c :: rest =>
    if c = ')' ∧ rest.all pySpaceChar then true
    else if c = '\n' then false
    else restCloseOk rest

/-- The day group `(\d{1,2})` of `DATE_STR_RE` together with its trailing
context `.*?\)\s*$`, with the regex backtracking preference for two digits. -/
def matchDay : List Char → Option Nat
  | c1 :: c2 :: rest =>
    if isDig c1 ∧ isDig c2 ∧ restCloseOk rest then
      some (digVal c1 * 10 + digVal c2)
    else if isDig c1 ∧ restCloseOk (c2 :: rest) then
      some (digVal c1)
    else none
  | _ => none

/-- Full match of `DATE_STR_RE` against a character list, returning the three
captured groups (year, month, day) as numbers. -/
def dateMatchL (l : List Char) : Option (Nat × Nat × Nat) :=
  match expectStr (['D', 'a', 't', 'e', '(']) (skipSpaces l) with
  | none => none
  | some r1 =>
    let yd := r1.take 4
    let r2 := r1.drop 4
    if yd.length = 4 ∧ yd.all isDig then
      match expectStr ([',']) r2 with
      | none => none
      | some r3 =>
        let mdr := digitRun (skipSpaces r3)
        if mdr.1.length = 1 ∨ mdr.1.length = 2 then
          match expectStr ([',']) mdr.2 with
          | none => none
          | some r6 =>
            match matchDay (skipSpaces r6) with
            | none => none
            | some d => some (digitsVal yd, digitsVal mdr.1, d)
        else none
    else none

/-- Zero-pad to two digits (`f"{n:02d}"`). -/
def pad2 (n : Nat) : String := if n < 10 then "0" ++ toString n else toString n

/-- Zero-pad to four digits (`f"{n:04d}"`). -/
def pad4 (n : Nat) : String :=
  if n < 10 then "000" ++ toString n
  else if n < 100 then "00" ++ toString n
  else if n < 1000 then "0" ++ toString n
  else toString n

-- ---------------------------------------------------------------------------
-- STATS_RE = Min:\s*([0-9]+(?:\.[0-9]+)?)\s*,\s*Max:\s*([0-9]+(?:\.[0-9]+)?)
--            \s*,\s*([0-9]+)\s+Responses?   (IGNORECASE)
-- ---------------------------------------------------------------------------

/-- Exact rational value of `[0-9]+(?:\.[0-9]+)?` from its two digit groups. -/
def ratOfParts (ip fp : List Char) : Rat :=
  (digitsVal ip : Rat) + (digitsVal fp : Rat) / ((10 : Rat) ^ fp.length)

/-- Match `[0-9]+(?:\.[0-9]+)?` at the head of the list (greedy, with the
fraction left unconsumed when no digit follows the dot). -/
def numMatch (l : List Char) : Option (Rat × List Char) :=
  let ir := digitRun l
  if ir.1 = [] then none
  else
    match ir.2 with
    | '.' :: r2 =>
      let fr := digitRun r2
      if fr.1 = [] then some ((digitsVal ir.1 : Rat), '.' :: r2)
      else some (ratOfParts ir.1 fr.1, fr.2)
    | _ => some ((digitsVal ir.1 : Rat), ir.2)

/-- Attempt to match `STATS_RE` starting exactly at the head of the list,
returning the captured (min, max, responses). -/
def statsMatchAt (l : List Char) : Option (Rat × Rat × Nat) :=
  match expectCI (['m', 'i', 'n', ':']) l with
  | none => none
  | some r1 =>
    match numMatch (skipSpaces r1) with
    | none => none
    | some (mn, r2) =>
      match expectStr ([',']) (skipSpaces r2) with
      | none => none
      | some r3 =>
        match expectCI (['m', 'a', 'x', ':']) (skipSpaces r3) with
        | none => none
        | some r4 =>
          match numMatch (skipSpaces r4) with
          | none => none
          | some (mx, r5) =>
            match expectStr ([',']) (skipSpaces r5) with
            | none => none
            | some r6 =>
              let rr := digitRun (skipSpaces r6)
              if rr.1 = [] then none
              else
                match rr.2 with
                | c :: r8 =>
                  if pySpaceChar c then
                    match expectCI (['r', 'e', 's', 'p', 'o', 'n', 's', 'e'])
                        (skipSpaces r8) with
                    | none => none
                    | some _ => some (mn, mx, digitsVal rr.1)
                  else none
                | [] => none

/-- `re.search` with `STATS_RE`: first position whose suffix matches. -/
def statsSearch : List Char → Option (Rat × Rat × Nat)
  | [] => none
  | c :: rest =>
    match statsMatchAt (c :: rest) with
    | some v => some v
    | none => statsSearch rest

/-- `_parse_stats(fmt)` for a string argument: `(responses, min, max)`, all
populated on a match and all absent otherwise.  The `float`/`int` conversions
of the captured groups cannot fail, so the dead `except` branch is omitted. -/
def parse_stats (fmt : String) : Option Nat × Option Rat × Option Rat :=
  if fmt = "" then (none, none, none)
  else
    match statsSearch fmt.data with
    | some (mn, mx, resp) => (some resp, some mn, some mx)
    | none => (none, none, none)

-- ---------------------------------------------------------------------------
-- Decoded JSON values (the payload produced by `_extract_payload`)
-- ---------------------------------------------------------------------------

/-- A decoded Python value as produced by `json.loads`: `None`, booleans,
integers, floats (modelled exactly as rationals), strings, lists and
string-keyed dictionaries. -/
inductive PyVal where
  | vnone
  | vbool (b : Bool)
  | vint (n : Int)
  | vnum (q : Rat)
  | vstr (s : String)
  | vlist (xs : List PyVal)
  | vdict (kvs : List (String × PyVal))

/-- Python truthiness. -/
def pyTruthy : PyVal → Bool
  | .vnone => false
  | .vbool b => b
  | .vint n => n ≠ 0
  | .vnum q => q ≠ 0
  | .vstr s => s ≠ ""
  | .vlist xs => !xs.isEmpty
  | .vdict kvs => !kvs.isEmpty

/-- `x or y` on Python values. -/
def pyOr (a b : PyVal) : PyVal := if pyTruthy a then a else b

/-- Lookup in a string-keyed dictionary. -/
def dictGet (kvs : List (String × PyVal)) (k : String) : Option PyVal :=
  (kvs.find? (fun kv => kv.1 = k)).map (fun kv => kv.2)

/-- `d.get(k, default)` on a dictionary value we already know is a dict. -/
def dictGetD (kvs : List (String × PyVal)) (k : String) (d : PyVal) : PyVal :=
  (dictGet kvs k).getD d

mutual

/-- Python `repr` (simplified: strings quoted without escaping, floats shown
as `num/den` when not integral — only ever applied to column labels). -/
def pyRepr : PyVal → String
  | .vnone => "None"
  | .vbool b => if b then "True" else "False"
  | .vint n => toString n
  | .vnum q => if q.den = 1 then toString q.num ++ ".0" else toString q
  | .vstr s => "'" ++ s ++ "'"
  | .vlist xs => "[" ++ pyReprList xs ++ "]"
  | .vdict kvs => "\x7b" ++ pyReprDict kvs ++ "\x7d"

/-- Comma-separated reprs of list items. -/
def pyReprList : List PyVal → String
  | [] => ""
  | [x] => pyRepr x
  | x :: y :: xs => pyRepr x ++ ", " ++ pyReprList (y :: xs)

/-- Comma-separated reprs of dictionary items. -/
def pyReprDict : List (String × PyVal) → String
  | [] => ""
  | [kv] => "'" ++ kv.1 ++ "': " ++ pyRepr kv.2
  | kv :: kw :: kvs => "'" ++ kv.1 ++ "': " ++ pyRepr kv.2 ++ ", " ++ pyReprDict (kw :: kvs)

end

/-- Python `str(...)`. -/
def pyStr : PyVal → String
  | .vstr s => s
  | v => pyRepr v

/-- Decimal float-literal parsing for Python `float(str)` (sign, digits,
optional fraction and exponent; infinite and NaN literals are outside the
model). -/
def parseExpDigits (l : List Char) : Option Nat :=
  let dr := digitRun l
  if dr.1 = [] then none
  else if dr.2 = [] then some (digitsVal dr.1) else none

/-- Signed exponent part after `e`/`E`. -/
def parseSignedExp : List Char → Option Int
  | '-' :: r => (parseExpDigits r).map (fun n => -(n : Int))
  | '+' :: r => (parseExpDigits r).map (fun n => (n : Int))
  | l => (parseExpDigits l).map (fun n => (n : Int))

/-- Optional exponent suffix; the whole remainder must be consumed. -/
def parseExpPart : List Char → Option Int
  | [] => some 0
  | 'e' :: r => parseSignedExp r
  | 'E' :: r => parseSignedExp r
  | _ => none

/-- Scale a mantissa by a signed power of ten. -/
def applyExp (m : Rat) (e : Int) : Rat :=
  if 0 ≤ e then m * (10 : Rat) ^ e.toNat else m / (10 : Rat) ^ (-e).toNat

/-- Unsigned float literal body. -/
def parseUnsignedFloat (l : List Char) : Option Rat :=
  let ir := digitRun l
  match ir.2 with
  | '.' :: r2 =>
    let fr := digitRun r2
    if ir.1 = [] ∧ fr.1 = [] then none
    else (parseExpPart fr.2).map (fun e => applyExp (ratOfParts ir.1 fr.1) e)
  | _ =>
    if ir.1 = [] then none
    else (parseExpPart ir.2).map (fun e => applyExp ((digitsVal ir.1 : Rat)) e)

/-- Signed float literal. -/
def parseSignedFloat : List Char → Option Rat
  | '-' :: r => (parseUnsignedFloat r).map (fun q => -q)
  | '+' :: r => parseUnsignedFloat r
  | l => parseUnsignedFloat l

/-- Python `float(str)` on the stripped string. -/
def parseFloatStr (s : String) : Option Rat := parseSignedFloat (pyStripL s.data)

/-- Python `float(v)`: `none` models a raised `TypeError`/`ValueError`
(always caught by the surrounding `try`). -/
def pyFloat : PyVal → Option Rat
  | .vint n => some (n : Rat)
  | .vnum q => some q
  | .vbool b => some (if b then 1 else 0)
  | .vstr s => parseFloatStr s
  | _ => none

-- ---------------------------------------------------------------------------
-- Python operations that can raise, used by `_rows_to_records`
-- ---------------------------------------------------------------------------

/-- `v[1:]` (slicing): lists and strings slice, everything else raises. -/
def pySlice1 : PyVal → Except PyErr (List PyVal)
  | .vlist xs => .ok (xs.drop 1)
  | .vstr s => .ok ((s.data.drop 1).map (fun c => .vstr (String.singleton c)))
  | _ => .error .typeError

/-- `for x in v`: lists yield items, strings yield characters, dicts yield
keys, everything else raises `TypeError`. -/
def pyIter : PyVal → Except PyErr (List PyVal)
  | .vlist xs => .ok xs
  | .vstr s => .ok (s.data.map (fun c => .vstr (String.singleton c)))
  | .vdict kvs => .ok (kvs.map (fun kv => .vstr kv.1))
  | _ => .error .typeError

/-- `len(v)`. -/
def pyLen : PyVal → Except PyErr Nat
  | .vlist xs => .ok xs.length
  | .vstr s => .ok s.length
  | .vdict kvs => .ok kvs.length
  | _ => .error .typeError

/-- `v[j]` for a non-negative integer index: integer lookup in a string-keyed
dict raises `KeyError`, non-subscriptables raise `TypeError`. -/
def pyIndex (v : PyVal) (j : Nat) : Except PyErr PyVal :=
  match v with
  | .vlist xs =>
    match xs.get? j with
    | some x => .ok x
    | none => .error .indexError
  | .vstr s =>
    match s.data.get? j with
    | some c => .ok (.vstr (String.singleton c))
    | none => .error .indexError
  | .vdict _ => .error .keyError
  | _ => .error .typeError

/-- `v.get(k, default)`: raises `AttributeError` unless `v` is a dict. -/
def pyGetM (v : PyVal) (k : String) (d : PyVal) : Except PyErr PyVal :=
  match v with
  | .vdict kvs => .ok (dictGetD kvs k d)
  | _ => .error .attributeError

-- ---------------------------------------------------------------------------
-- Record data model and `_date_from_cell`, `_parse_stats` on values
-- ---------------------------------------------------------------------------

/-- One normalized observation (`@dataclass Record`). -/
structure Record where
  date : String
  team : String
  value : Rat
  tribe : String
  responses : Option Nat := none
  min_value : Option Rat := none
  max_value : Option Rat := none
  deriving DecidableEq, Repr

/-- `_date_from_cell(v)`: only strings matching `DATE_STR_RE` decode, with the
zero-based month incremented before formatting. -/
def date_from_cell : PyVal → Option String
  | .vstr s =>
    (dateMatchL s.data).map
      (fun g => pad4 g.1 ++ "-" ++ pad2 (g.2.1 + 1) ++ "-" ++ pad2 g.2.2)
  | _ => none

/-- `_parse_stats(fmt)` on the value `cell.get("f") or ""`: falsy values take
the early return, non-string truthy values make `re.search` raise. -/
def parse_stats_v : PyVal → Except PyErr (Option Nat × Option Rat × Option Rat)
  | f =>
    if pyTruthy f then
      match f with
      | .vstr s => .ok (parse_stats s)
      | _ => .error .typeError
    else .ok (none, none, none)

-- ---------------------------------------------------------------------------
-- `_rows_to_records`
-- ---------------------------------------------------------------------------

/-- Team label of one column descriptor:
`str(c.get("label") or c.get("id") or f"col{i}")`. -/
def labelOf (d : List (String × PyVal)) (i : Nat) : String :=
  let x := dictGetD d "label" .vnone
  if pyTruthy x then pyStr x
  else
    let y := dictGetD d "id" .vnone
    if pyTruthy y then pyStr y else "col" ++ toString i

/-- Labels of the column descriptors after the date column
(`enumerate(cols[1:], start=1)`); a non-dict descriptor raises on `.get`. -/
def labelsOf : List PyVal → Nat → Except PyErr (List String)
  | [], _ => .ok []
  | .vdict d :: rest, i =>
    match labelsOf rest (i + 1) with
    | .error e => .error e
    | .ok ls => .ok (labelOf d i :: ls)
  | _ :: _, _ => .error .attributeError

/-- The label list derived from the raw `cols` value: slice off the date
column, then read each descriptor's label. -/
def deriveLabels (cols : PyVal) : Except PyErr (List String) :=
  match pySlice1 cols with
  | .error e => .error e
  | .ok items => labelsOf items 1

/-- Drop the final label when it is the aggregate "average" column
(case-insensitive, trimmed). -/
def dropAverage (ls : List String) : List String :=
  if ls ≠ [] ∧ pyLower (pyStrip (ls.getLastD "")) = "average" then ls.dropLast
  else ls

/-- Inner loop of `_rows_to_records`: `for j, team in enumerate(labels, start=1)`
over one row's cells. -/
def recsOfCells (date tribe : String) (cells : PyVal) :
    List String → Nat → Except PyErr (List Record)
  | [], _ => .ok []
  | team :: rest, j =>
    match pyLen cells with
    | .error e => .error e
    | .ok len =>
      if j ≥ len then recsOfCells date tribe cells rest (j + 1)
      else
        match pyIndex cells j with
        | .error e => .error e
        | .ok cell =>
          match cell with
          | .vdict d =>
            match dictGetD d "v" .vnone with
            | .vnone => recsOfCells date tribe cells rest (j + 1)
            | v =>
              match parse_stats_v (pyOr (dictGetD d "f" .vnone) (.vstr "")) with
              | .error e => .error e
              | .ok stats =>
                match recsOfCells date tribe cells rest (j + 1) with
                | .error e => .error e
                | .ok recs =>
                  match pyFloat v with
                  | some q =>
                    .ok (⟨date, team, q, tribe, stats.1, stats.2.1, stats.2.2⟩ :: recs)
                  | none => .ok recs
          | _ => recsOfCells date tribe cells rest (j + 1)

/-- One row of `_rows_to_records`: fetch `row.get("c", [])`, skip falsy cell
lists, decode the first cell's date (falling back to the current date
`today`), then walk the team columns. -/
def recsOfRow (today tribe : String) (labels : List String) (row : PyVal) :
    Except PyErr (List Record) :=
  match pyGetM row "c" (.vlist []) with
  | .error e => .error e
  | .ok cells =>
    if pyTruthy cells then
      match pyIndex cells 0 with
      | .error e => .error e
      | .ok c0 =>
        match pyGetM c0 "v" .vnone with
        | .error e => .error e
        | .ok v0 =>
          recsOfCells ((date_from_cell v0).getD today) tribe cells labels 1
    else .ok []

/-- All rows of `_rows_to_records`. -/
def recsOfRows (today tribe : String) (labels : List String) :
    List PyVal → Except PyErr (List Record)
  | [] => .ok []
  | row :: rest =>
    match recsOfRow today tribe labels row with
    | .error e => .error e
    | .ok rs =>
      match recsOfRows today tribe labels rest with
      | .error e => .error e
      | .ok more => .ok (rs ++ more)

/-- `_rows_to_records(payload, tribe)`: `today` is the value of
`time.strftime("%Y-%m-%d")` used as the date fallback. -/
def rows_to_records (today : String) (payload : List (String × PyVal))
    (tribe : String) : Except PyErr (List Record) :=
  let cols := dictGetD payload "cols" (.vlist [])
  let rows := dictGetD payload "rows" (.vlist [])
  if pyTruthy cols ∧ pyTruthy rows then
    match deriveLabels cols with
    | .error e => .error e
    | .ok labels0 =>
      match pyIter rows with
      | .error e => .error e
      | .ok rowItems => recsOfRows today tribe (dropAverage labels0) rowItems
  else .ok []

-- ---------------------------------------------------------------------------
-- SHA-1 (hashlib.sha1) over UTF-8 bytes, for `_make_id`
-- ---------------------------------------------------------------------------

/-- UTF-8 encoding of one code point as byte values. -/
def utf8Bytes (n : Nat) : List Nat :=
  if n < 128 then [n]
  else if n < 2048 then [192 + n / 64, 128 + n % 64]
  else if n < 65536 then [224 + n / 4096, 128 + (n / 64) % 64, 128 + n % 64]
  else [240 + n / 262144, 128 + (n / 4096) % 64, 128 + (n / 64) % 64, 128 + n % 64]

/-- UTF-8 bytes of a string (`str.encode("utf-8")`). -/
def strBytes (s : String) : List Nat :=
  s.data.foldr (fun c acc => utf8Bytes c.toNat ++ acc) []

/-- Truncate to a 32-bit word. -/
def w32 (n : Nat) : Nat := n % 4294967296

/-- Rotate a 32-bit word left by `k`. -/
def rotl32 (k n : Nat) : Nat := w32 ((n <<< k) ||| (n >>> (32 - k)))

/-- SHA-1 round function. -/
def sha1F (i b c d : Nat) : Nat :=
  if i < 20 then (b &&& c) ||| ((b ^^^ 4294967295) &&& d)
  else if i < 40 then b ^^^ c ^^^ d
  else if i < 60 then (b &&& c) ||| (b &&& d) ||| (c &&& d)
  else b ^^^ c ^^^ d

/-- SHA-1 round constant. -/
def sha1K (i : Nat) : Nat :=
  if i < 20 then 1518500249
  else if i < 40 then 1859775393
  else if i < 60 then 2400959708
  else 3395469782

/-- Big-endian 32-bit words from a list of bytes. -/
def bytesToWords : List Nat → List Nat
  | b0 :: b1 :: b2 :: b3 :: rest =>
    (((b0 * 256 + b1) * 256 + b2) * 256 + b3) :: bytesToWords rest
  | _ => []

/-- Split a byte list into 64-byte chunks. -/
def chunks64 : List Nat → List (List Nat)
  | [] => []
  | b :: rest => ((b :: rest).take 64) :: chunks64 ((b :: rest).drop 64)
termination_by l => l.length
decreasing_by simp; omega

/-- Big-endian 8-byte encoding of the bit length. -/
def beBytes8 (n : Nat) : List Nat :=
  [w32 (n >>> 56) % 256, (n >>> 48) % 256, (n >>> 40) % 256, (n >>> 32) % 256,
   (n >>> 24) % 256, (n >>> 16) % 256, (n >>> 8) % 256, n % 256]

/-- Merkle–Damgård padding: `0x80`, zeros to 56 mod 64, 64-bit bit length. -/
def sha1Pad (msg : List Nat) : List Nat :=
  msg ++ [128] ++ List.replicate ((119 - msg.length % 64) % 64) 0
      ++ beBytes8 (msg.length * 8)

/-- Extend 16 message words to the 80-word schedule. -/
def sha1Extend (ws : List Nat) : List Nat :=
  (List.range 64).foldl
    (fun acc _ =>
      acc ++ [rotl32 1 (acc.getD (acc.length - 3) 0 ^^^ acc.getD (acc.length - 8) 0
        ^^^ acc.getD (acc.length - 14) 0 ^^^ acc.getD (acc.length - 16) 0)])
    ws

/-- Compress one 64-byte chunk into the running state. -/
def sha1Chunk (h : Nat × Nat × Nat × Nat × Nat) (chunk : List Nat) :
    Nat × Nat × Nat × Nat × Nat :=
  let ws := sha1Extend (bytesToWords chunk)
  let r := (List.range 80).foldl
    (fun st i =>
      let tmp := w32 (rotl32 5 st.1 + sha1F i st.2.1 st.2.2.1 st.2.2.2.1
        + st.2.2.2.2 + sha1K i + ws.getD i 0)
      (tmp, st.1, rotl32 30 st.2.1, st.2.2.1, st.2.2.2.1))
    h
  (w32 (h.1 + r.1), w32 (h.2.1 + r.2.1), w32 (h.2.2.1 + r.2.2.1),
   w32 (h.2.2.2.1 + r.2.2.2.1), w32 (h.2.2.2.2 + r.2.2.2.2))

/-- SHA-1 digest of a byte list, as five 32-bit words. -/
def sha1Words (msg : List Nat) : Nat × Nat × Nat × Nat × Nat :=
  (chunks64 (sha1Pad msg)).foldl sha1Chunk
    (1732584193, 4023233417, 2562383102, 271733878, 3285377520)

/-- Lowercase hex digit. -/
def hexDigit (n : Nat) : Char :=
  if n < 10 then digCh n
  else if n = 10 then 'a' else if n = 11 then 'b' else if n = 12 then 'c'
  else if n = 13 then 'd' else if n = 14 then 'e' else 'f'

/-- Eight hex digits of a 32-bit word, most significant first. -/
def word8Hex (w : Nat) : List Char :=
  (List.range 8).map (fun k => hexDigit ((w >>> ((7 - k) * 4)) &&& 15))

/-- `hashlib.sha1(bytes).hexdigest()`. -/
def sha1Hex (msg : List Nat) : String :=
  let h := sha1Words msg
  ⟨word8Hex h.1 ++ word8Hex h.2.1 ++ word8Hex h.2.2.1 ++ word8Hex h.2.2.2.1
    ++ word8Hex h.2.2.2.2⟩

/-- `_make_id(url)`: first 12 hex digits of the SHA-1 of the stripped URL. -/
def make_id (url : String) : String :=
  ⟨(sha1Hex (strBytes (pyStrip url))).data.take 12⟩

-- ---------------------------------------------------------------------------
-- Source registry, file backend (scrapper_api.py)
-- ---------------------------------------------------------------------------

/-- One normalized registry row (`{"id", "url", "tribe", "created_ts"}`);
a missing `id` is modelled by the empty string, times are `Nat` seconds. -/
structure SrcRow where
  id : String
  url : String
  tribe : String
  created_ts : Nat
  deriving DecidableEq, Repr

/-- `_norm_row(r)`: drop rows with an empty stripped URL, default the id from
the URL hash and the creation time (falsy, i.e. `0`) from the clock `now`. -/
def norm_row (now : Nat) (r : SrcRow) : Option SrcRow :=
  let u := pyStrip r.url
  if u = "" then none
  else
    some ⟨if r.id ≠ "" then r.id else make_id u, u, pyStrip r.tribe,
      if r.created_ts = 0 then now else r.created_ts⟩

/-- The de-dupe loop of `_ensure_rows`: keep the first row for each URL. -/
def dedupeByUrl : List SrcRow → List String → List SrcRow
  | [], _ => []
  | r :: rest, seen =>
    if r.url ∈ seen then dedupeByUrl rest seen
    else r :: dedupeByUrl rest (r.url :: seen)

/-- Sort key comparison of `_ensure_rows`:
`key=lambda x: (x["tribe"].lower(), x["url"].lower())`. -/
def fileKeyLe (a b : SrcRow) : Prop :=
  (pyLower a.tribe).data < (pyLower b.tribe).data ∨
    ((pyLower a.tribe).data = (pyLower b.tribe).data ∧
      (pyLower a.url).data ≤ (pyLower b.url).data)

instance : DecidableRel fileKeyLe :=
  fun _ _ => inferInstanceAs (Decidable (_ ∨ _))

/-- `_ensure_rows(rows)`: normalize, de-dupe by URL, stable-sort by
(lowercased tribe, lowercased url). -/
def ensure_rows (now : Nat) (rows : List SrcRow) : List SrcRow :=
  List.insertionSort fileKeyLe (dedupeByUrl (rows.filterMap (norm_row now)) [])

/-- `list_sources()` for the file backend: the stored rows pass through
`_ensure_rows` on every read. -/
def list_sources_file (now : Nat) (fileRows : List SrcRow) : List SrcRow :=
  ensure_rows now fileRows

/-- `add_source(url, tribe)` for the file backend: drop any row with the same
URL, append the new row (deterministic id), and write through `_ensure_rows`.
Returns the new row and the stored list. -/
def add_source (url tribe : String) (now : Nat) (rows : List SrcRow) :
    SrcRow × List SrcRow :=
  ((⟨make_id url, pyStrip url, pyStrip tribe, now⟩ : SrcRow),
   ensure_rows now ((rows.filter (fun r => r.url ≠ pyStrip url))
     ++ [(⟨make_id url, pyStrip url, pyStrip tribe, now⟩ : SrcRow)]))

/-- `delete_source(sid)` for the file backend: `none` models the `False`
return (no match), otherwise the stored list after the write. -/
def delete_source (sid : String) (now : Nat) (rows : List SrcRow) :
    Option (List SrcRow) :=
  let kept := rows.filter (fun r => r.id ≠ sid)
  if kept.length = rows.length then none else some (ensure_rows now kept)

-- ---------------------------------------------------------------------------
-- Source registry, Postgres backend (storage_pg.py)
-- ---------------------------------------------------------------------------

/-- `add_source(url, tribe)` in storage_pg.py: a plain INSERT of a fresh
random id (`uuid` is the oracle for `uuid.uuid4().hex`).  No URL uniqueness
is enforced. -/
def pg_add_source (uuid url tribe : String) (now : Nat) (tbl : List SrcRow) :
    SrcRow × List SrcRow :=
  ((⟨uuid, pyStrip url, pyStrip tribe, now⟩ : SrcRow),
   tbl ++ [(⟨uuid, pyStrip url, pyStrip tribe, now⟩ : SrcRow)])

/-- `ORDER BY created_ts, id` comparison. -/
def pgKeyLe (a b : SrcRow) : Prop :=
  a.created_ts < b.created_ts ∨ (a.created_ts = b.created_ts ∧ a.id.data ≤ b.id.data)

instance : DecidableRel pgKeyLe :=
  fun _ _ => inferInstanceAs (Decidable (_ ∨ _))

/-- `list_sources()` in storage_pg.py:
`select id,url,tribe,created_ts from sources order by created_ts,id`. -/
def pg_list_sources (tbl : List SrcRow) : List SrcRow :=
  List.insertionSort pgKeyLe tbl

instance : IsTrans SrcRow pgKeyLe := by
  constructor
  intro a b c hab hbc
  unfold pgKeyLe at *
  rcases hab with h1 | ⟨h1, h1'⟩ <;> rcases hbc with h2 | ⟨h2, h2'⟩
  · exact Or.inl (h1.trans h2)
  · exact Or.inl (h2 ▸ h1)
  · exact Or.inl (h1 ▸ h2)
  · exact Or.inr ⟨h1.trans h2, h1'.trans h2'⟩

instance : IsTotal SrcRow pgKeyLe := by
  constructor
  intro a b
  unfold pgKeyLe
  rcases Nat.lt_trichotomy a.created_ts b.created_ts with h | h | h
  · exact Or.inl (Or.inl h)
  · rcases le_total a.id.data b.id.data with h' | h'
    · exact Or.inl (Or.inr ⟨h, h'⟩)
    · exact Or.inr (Or.inr ⟨h.symm, h'⟩)
  · exact Or.inr (Or.inl h)

instance : IsTrans SrcRow fileKeyLe := by
  constructor
  intro a b c hab hbc
  unfold fileKeyLe at *
  rcases hab with h1 | ⟨h1, h1'⟩ <;> rcases hbc with h2 | ⟨h2, h2'⟩
  · exact Or.inl (h1.trans h2)
  · exact Or.inl (h2 ▸ h1)
  · exact Or.inl (h1 ▸ h2)
  · exact Or.inr ⟨h1.trans h2, h1'.trans h2'⟩

instance : IsTotal SrcRow fileKeyLe := by
  constructor
  intro a b
  unfold fileKeyLe
  rcases lt_trichotomy (pyLower a.tribe).data (pyLower b.tribe).data with h | h | h
  · exact Or.inl (Or.inl h)
  · rcases le_total (pyLower a.url).data (pyLower b.url).data with h' | h'
    · exact Or.inl (Or.inr ⟨h, h'⟩)
    · exact Or.inr (Or.inr ⟨h.symm, h'⟩)
  · exact Or.inr (Or.inl h)

/-- `delete_source(sid)` in storage_pg.py. -/
def pg_delete_source (sid : String) (tbl : List SrcRow) : Bool × List SrcRow :=
  let kept := tbl.filter (fun r => r.id ≠ sid)
  (kept.length < tbl.length, kept)

-- ---------------------------------------------------------------------------
-- Aggregation cache (`_cache`, `get_data`) and the mutating endpoints
-- ---------------------------------------------------------------------------

/-- The process-wide cache slot `_cache = {"ts": 0.0, "data": []}`. -/
structure Cache where
  ts : Nat
  data : List Record
  deriving DecidableEq, Repr

/-- Result of one `get_data` call, instrumented with whether the round was
recomputed and how many URL fetches it performed. -/
structure GetOut where
  records : List Record
  cache : Cache
  recomputed : Bool
  fetches : Nat
  deriving DecidableEq, Repr

/-- The merge loop of `get_data`: each source contributes its scraped records,
and a source whose scrape raises contributes nothing (`except: pass`). -/
def merge_round (scrape : String → Except PyErr (List Record)) :
    List SrcRow → List Record
  | [] => []
  | s :: rest =>
    (match scrape s.url with
     | .ok recs => recs
     | .error _ => []) ++ merge_round scrape rest

/-- `get_data(force)`: serve the cached generation when `force` is unset, it
is younger than the TTL and non-empty; otherwise scrape every source and
atomically publish the merged list.  The response to the caller is exactly
`records` — a plain list in both cases. -/
def get_data (ttl : Nat) (force : Bool) (now : Nat)
    (scrape : String → Except PyErr (List Record)) (sources : List SrcRow)
    (cache : Cache) : GetOut :=
  if force = false ∧ now - cache.ts < ttl ∧ cache.data ≠ [] then
    ⟨cache.data, cache, false, 0⟩
  else
    ⟨merge_round scrape sources, ⟨now, merge_round scrape sources⟩, true,
      sources.length⟩

/-- An HTTP error response raised by an endpoint (`HTTPException`). -/
structure HTTPExc where
  code : Nat
  msg : String
  deriving DecidableEq, Repr

/-- The `POST /sources` endpoint: reject an empty stripped URL with 400,
otherwise add the source and set `_cache["data"] = []` (the timestamp is left
unchanged).  Returns the new row, the stored rows and the cache slot. -/
def sources_add (url tribe : String) (now : Nat) (rows : List SrcRow)
    (cache : Cache) : Except HTTPExc (SrcRow × List SrcRow × Cache) :=
  if pyStrip url = "" then .error ⟨400, "url required"⟩
  else
    .ok ((add_source (pyStrip url) (pyStrip tribe) now rows).1,
      (add_source (pyStrip url) (pyStrip tribe) now rows).2,
      ⟨cache.ts, []⟩)

/-- The `DELETE /sources/{sid}` endpoint: 404 when nothing was deleted,
otherwise set `_cache["data"] = []`. -/
def sources_delete (sid : String) (now : Nat) (rows : List SrcRow)
    (cache : Cache) : Except HTTPExc (List SrcRow × Cache) :=
  match delete_source sid now rows with
  | none => .error ⟨404, "Not found"⟩
  | some kept => .ok (kept, ⟨cache.ts, []⟩)

-- ---------------------------------------------------------------------------
-- Decimal rendering of numbers, used to state the Date-Decoder claims
-- ---------------------------------------------------------------------------

/-- Decimal digits of a natural number, most significant first. -/
def natStrL (n : Nat) : List Char :=
  if _h : n < 10 then [digCh n]
  else natStrL (n / 10) ++ [digCh (n % 10)]
termination_by n
decreasing_by exact Nat.div_lt_self (by omega) (by omega)

/-- Decimal rendering of a natural number. -/
def natStr (n : Nat) : String := ⟨natStrL n⟩

/-- The literal string `Date(Y, M, D…` followed by an arbitrary tail (the
closing parenthesis, or trailing time components and the parenthesis). -/
def dateLitT (y m d : Nat) (tail : List Char) : String :=
  ⟨['D', 'a', 't', 'e', '('] ++ natStrL y ++ [',', ' '] ++ natStrL m
    ++ [',', ' '] ++ natStrL d ++ tail⟩

/-- The literal string `Date(Y, M, D)`. -/
def dateLit (y m d : Nat) : String := dateLitT y m d [')']

-- ---------------------------------------------------------------------------
-- Shared helper lemmas
-- ---------------------------------------------------------------------------

theorem merge_round_append (scrape : String → Except PyErr (List Record))
    (l1 l2 : List SrcRow) :
    merge_round scrape (l1 ++ l2) = merge_round scrape l1 ++ merge_round scrape l2 := by
  induction l1 with
  | nil => simp [merge_round]
  | cons s rest ih => simp [merge_round, ih]

-- ---------------------------------------------------------------------------
-- C3
-- ---------------------------------------------------------------------------

/-- Claim C3 (code_bug): the extraction pipeline is claimed never to raise,
but `_rows_to_records` reads `cells[0].get("v")` without checking that the
first cell is a dict: a payload whose first cell is `null` makes it raise
`AttributeError` (every other cell is guarded by `isinstance(cell, dict)`). -/
theorem C3_code_bug :
    rows_to_records ("1970-01-01")
      [("cols", .vlist [.vdict [("label", .vstr ("Date"))],
                        .vdict [("label", .vstr ("T1"))]]),
       ("rows", .vlist [.vdict [("c", .vlist [.vnone, .vdict [("v", .vint 1)]])]])]
      ("g") = .error .attributeError := by decide

-- ---------------------------------------------------------------------------
-- C10
-- ---------------------------------------------------------------------------

/-- Claim C10 (confirmed): in the file backend the id returned by
`add_source` is a pure function of the URL alone — the first 12 hex digits of
the SHA-1 of the stripped URL — so any two adds of the same URL, at any
times, with any group labels, in any registry states, return the same id. -/
theorem C10_confirmed :
    ∀ (url tribe1 tribe2 : String) (now1 now2 : Nat)
      (rows1 rows2 : List SrcRow),
      (add_source url tribe1 now1 rows1).1.id = (add_source url tribe2 now2 rows2).1.id
      ∧ (add_source url tribe1 now1 rows1).1.id
          = ⟨(sha1Hex (strBytes (pyStrip url))).data.take 12⟩ :=
  fun _ _ _ _ _ _ _ => ⟨rfl, rfl⟩

-- ---------------------------------------------------------------------------
-- C1
-- ---------------------------------------------------------------------------

/-- Claim C1 (counterexample): `get_data` never returns an error list.  A
recompute round in which the only source fails returns the plain empty record
list — byte-for-byte the same response as an error-free round over an empty
registry — so the failing source's URL `u1` appears nowhere and the caller
cannot distinguish the errors-present shape from the error-free shape. -/
theorem C1_counterexample :
    (get_data 600 false 1000 (fun _ => .error .typeError)
        [⟨"i1", "u1", "g", 1⟩] ⟨0, []⟩).records
      = (get_data 600 false 1000 (fun _ => .ok []) [] ⟨0, []⟩).records
    ∧ (get_data 600 false 1000 (fun _ => .error .typeError)
        [⟨"i1", "u1", "g", 1⟩] ⟨0, []⟩).records = [] := by decide

/-- Claim C1 (amended): per-source failures are swallowed silently — the
response is always the plain merged record list, a failing source contributes
nothing while every other source's records are exactly preserved (removing
the failing source from the registry would give the identical response), and
no (url, message) error list exists in the response. -/
theorem C1_amended (ttl now : Nat) (scrape : String → Except PyErr (List Record))
    (pre post : List SrcRow) (bad : SrcRow) (cache : Cache) (e : PyErr)
    (hfail : scrape bad.url = .error e) :
    (get_data ttl true now scrape (pre ++ bad :: post) cache).records
      = merge_round scrape pre ++ merge_round scrape post
    ∧ (get_data ttl true now scrape (pre ++ bad :: post) cache).records
      = (get_data ttl true now scrape (pre ++ post) cache).records := by
  have hget : ∀ (src : List SrcRow),
      (get_data ttl true now scrape src cache).records = merge_round scrape src := by
    intro src
    rw [get_data, if_neg (by simp)]
  have hbad : merge_round scrape (bad :: post) = merge_round scrape post := by
    simp [merge_round, hfail]
  constructor
  · rw [hget, merge_round_append, hbad]
  · rw [hget, hget, merge_round_append, merge_round_append, hbad]

/-- Witness for C1_amended at a concrete three-source registry whose middle
source fails. -/
theorem C1_witness :
    (get_data 600 true 0
        (fun u => if u = "ubad" then .error .typeError
          else .ok [⟨"2024-01-05", "T", 3, "g", none, none, none⟩])
        [⟨"ia", "ua", "g", 1⟩, ⟨"ib", "ubad", "g", 2⟩, ⟨"ic", "uc", "g", 3⟩]
        ⟨0, []⟩).records
      = merge_round
          (fun u => if u = "ubad" then .error .typeError
            else .ok [⟨"2024-01-05", "T", 3, "g", none, none, none⟩])
          [⟨"ia", "ua", "g", 1⟩]
        ++ merge_round
          (fun u => if u = "ubad" then .error .typeError
            else .ok [⟨"2024-01-05", "T", 3, "g", none, none, none⟩])
          [⟨"ic", "uc", "g", 3⟩] :=
  (C1_amended 600 0 _ [⟨"ia", "ua", "g", 1⟩] [⟨"ic", "uc", "g", 3⟩]
    ⟨"ib", "ubad", "g", 2⟩ ⟨0, []⟩ .typeError (by decide)).1

-- ---------------------------------------------------------------------------
-- C4
-- ---------------------------------------------------------------------------

/-- Claim C4 (counterexample): the cache-hit test requires the stored
generation to be non-empty.  Starting from the boot cache `{ts: 0, data: []}`
with one failing source, two `get(force=false)` calls at times 0 and 1 — well
inside the 600-second TTL, with no registry mutation between them — both
recompute, and the second call performs a fetch, contradicting "at most one
scrape round" and "no fetches". -/
theorem C4_counterexample :
    ((get_data 600 false 0 (fun _ => .error .typeError)
        [⟨"i1", "u1", "g", 1⟩] ⟨0, []⟩).recomputed = true)
    ∧ ((get_data 600 false 1 (fun _ => .error .typeError) [⟨"i1", "u1", "g", 1⟩]
        (get_data 600 false 0 (fun _ => .error .typeError)
          [⟨"i1", "u1", "g", 1⟩] ⟨0, []⟩).cache).recomputed = true)
    ∧ ((get_data 600 false 1 (fun _ => .error .typeError) [⟨"i1", "u1", "g", 1⟩]
        (get_data 600 false 0 (fun _ => .error .typeError)
          [⟨"i1", "u1", "g", 1⟩] ⟨0, []⟩).cache).fetches = 1)
    ∧ ((1 : Nat) - 0 < 600) := by decide

/-- Claim C4 (amended): two `get(force=false)` calls within the TTL window
with no registry mutation in between perform at most one scrape round,
provided the first call's result is non-empty: the second call is then a pure
cache hit — it returns the first call's generation unchanged, performs no
fetches, and leaves the cache untouched. -/
theorem C4_amended (ttl t1 t2 : Nat)
    (scrape : String → Except PyErr (List Record)) (sources : List SrcRow)
    (cache : Cache)
    (h1 : (get_data ttl false t1 scrape sources cache).records ≠ [])
    (h2 : t2 - (get_data ttl false t1 scrape sources cache).cache.ts < ttl) :
    get_data ttl false t2 scrape sources
        ((get_data ttl false t1 scrape sources cache).cache)
      = ⟨(get_data ttl false t1 scrape sources cache).records,
         (get_data ttl false t1 scrape sources cache).cache, false, 0⟩ := by
  by_cases hc : (false = false ∧ t1 - cache.ts < ttl ∧ cache.data ≠ [])
  · have e1 : get_data ttl false t1 scrape sources cache = ⟨cache.data, cache, false, 0⟩ := by
      rw [get_data, if_pos hc]
    rw [e1] at h1 h2 ⊢
    rw [get_data, if_pos ⟨rfl, h2, h1⟩]
  · have e1 : get_data ttl false t1 scrape sources cache
        = ⟨merge_round scrape sources, ⟨t1, merge_round scrape sources⟩, true,
           sources.length⟩ := by
      rw [get_data, if_neg hc]
    rw [e1] at h1 h2 ⊢
    rw [get_data, if_pos ⟨rfl, h2, h1⟩]

/-- Witness for C4_amended: a successful first round at time 0, reread at
time 1 with a 600-second TTL. -/
theorem C4_witness :
    ((get_data 600 false 0 (fun _ => .ok [⟨"2024-01-05", "T", 3, "g", none, none, none⟩])
        [⟨"i1", "u1", "g", 1⟩] ⟨0, []⟩).records ≠ [])
    ∧ get_data 600 false 1 (fun _ => .ok [⟨"2024-01-05", "T", 3, "g", none, none, none⟩])
        [⟨"i1", "u1", "g", 1⟩]
        ((get_data 600 false 0 (fun _ => .ok [⟨"2024-01-05", "T", 3, "g", none, none, none⟩])
          [⟨"i1", "u1", "g", 1⟩] ⟨0, []⟩).cache)
      = ⟨(get_data 600 false 0 (fun _ => .ok [⟨"2024-01-05", "T", 3, "g", none, none, none⟩])
            [⟨"i1", "u1", "g", 1⟩] ⟨0, []⟩).records,
         (get_data 600 false 0 (fun _ => .ok [⟨"2024-01-05", "T", 3, "g", none, none, none⟩])
            [⟨"i1", "u1", "g", 1⟩] ⟨0, []⟩).cache, false, 0⟩ :=
  ⟨by decide,
   C4_amended 600 0 1 _ [⟨"i1", "u1", "g", 1⟩] ⟨0, []⟩ (by decide) (by decide)⟩

-- ---------------------------------------------------------------------------
-- C5
-- ---------------------------------------------------------------------------

/-- Claim C5 (confirmed): every successful registry mutation — a `POST
/sources` add, or a `DELETE /sources/{id}` of an existing id — empties the
cached generation, so the next `get(force=false)` recomputes (performs a
scrape round) at every later time, TTL notwithstanding. -/
theorem C5_confirmed :
    (∀ (url tribe : String) (now : Nat) (rows : List SrcRow) (cache : Cache)
        (row : SrcRow) (rows2 : List SrcRow) (cache2 : Cache),
      sources_add url tribe now rows cache = .ok (row, rows2, cache2) →
      ∀ (ttl t2 : Nat) (scrape : String → Except PyErr (List Record)),
        (get_data ttl false t2 scrape rows2 cache2).recomputed = true)
    ∧ ∀ (sid : String) (now : Nat) (rows : List SrcRow) (cache : Cache)
        (rows2 : List SrcRow) (cache2 : Cache),
      sources_delete sid now rows cache = .ok (rows2, cache2) →
      ∀ (ttl t2 : Nat) (scrape : String → Except PyErr (List Record)),
        (get_data ttl false t2 scrape rows2 cache2).recomputed = true := by
  constructor
  · intro url tribe now rows cache row rows2 cache2 h ttl t2 scrape
    unfold sources_add at h
    split at h
    · exact absurd h (by simp)
    · simp only [Except.ok.injEq, Prod.mk.injEq] at h
      obtain ⟨-, -, hc⟩ := h
      rw [← hc]
      rw [get_data, if_neg (by simp)]
  · intro sid now rows cache rows2 cache2 h ttl t2 scrape
    unfold sources_delete at h
    split at h
    · exact absurd h (by simp)
    · simp only [Except.ok.injEq, Prod.mk.injEq] at h
      obtain ⟨-, hc⟩ := h
      rw [← hc]
      rw [get_data, if_neg (by simp)]

/-- Witness for C5_confirmed: add a fresh URL, and delete an existing id,
each followed by a `get(force=false)` that recomputes despite a fresh TTL. -/
theorem C5_witness :
    ((get_data 600 false 3 (fun _ => .ok [])
        (add_source (pyStrip ("u")) (pyStrip ("t")) 5 []).2 ⟨2, []⟩).recomputed = true)
    ∧ ((get_data 600 false 3 (fun _ => .ok [])
        (ensure_rows 5 (List.filter (fun r => r.id ≠ ("i1")) [⟨"i1", "u", "t", 1⟩]))
        ⟨2, []⟩).recomputed = true) :=
  ⟨C5_confirmed.1 ("u") ("t") 5 [] ⟨2, []⟩ _ _ _ rfl 600 3 _,
   C5_confirmed.2 ("i1") 5 [⟨"i1", "u", "t", 1⟩] ⟨2, []⟩ _ _ rfl 600 3 _⟩

theorem dedupeByUrl_nodup : ∀ (l : List SrcRow) (seen : List String),
    ((dedupeByUrl l seen).map (fun r => r.url)).Nodup
    ∧ ∀ u ∈ (dedupeByUrl l seen).map (fun r => r.url), u ∉ seen := by
  intro l
  induction l with
  | nil => intro seen; simp [dedupeByUrl]
  | cons r rest ih =>
    intro seen
    by_cases h : r.url ∈ seen
    · simpa [dedupeByUrl, h] using ih seen
    · have ih2 := ih (r.url :: seen)
      rw [dedupeByUrl, if_neg h]
      refine ⟨?_, ?_⟩
      · rw [List.map_cons, List.nodup_cons]
        refine ⟨fun hmem => ?_, ih2.1⟩
        exact absurd (List.mem_cons_self _ _) (ih2.2 _ hmem)
      · intro u hu
        rcases List.mem_cons.mp hu with h1 | h2
        · rwa [h1]
        · intro hseen
          exact ih2.2 u h2 (List.mem_cons_of_mem _ hseen)

theorem ensure_rows_url_nodup (now : Nat) (rows : List SrcRow) :
    ((ensure_rows now rows).map (fun r => r.url)).Nodup := by
  unfold ensure_rows
  have hperm := List.perm_insertionSort fileKeyLe
    (dedupeByUrl (rows.filterMap (norm_row now)) [])
  exact ((hperm.map (fun r => r.url)).nodup_iff).mpr
    (dedupeByUrl_nodup (rows.filterMap (norm_row now)) []).1

/-- Claim C2 (counterexample): the Postgres backend never checks URL
uniqueness — re-registering the same URL inserts a second row with a fresh
random id, and `list()` then contains two Sources with the same URL. -/
theorem C2_counterexample :
    ((pg_list_sources
        (pg_add_source ("b2") ("https://x") ("g2") 2
          (pg_add_source ("a1") ("https://x") ("g1") 1 []).2).2).map (fun r => r.url)
      = ["https://x", "https://x"])
    ∧ ¬ ((pg_list_sources
        (pg_add_source ("b2") ("https://x") ("g2") 2
          (pg_add_source ("a1") ("https://x") ("g1") 1 []).2).2).map (fun r => r.url)).Nodup := by
  decide

/-- Claim C2 (amended): the file backend preserves the no-duplicate-URL
invariant — after any `add_source`, and indeed after any write or read
through `_ensure_rows` (every durable write goes through it), the rows have
pairwise-distinct URLs; the Postgres backend does not enforce uniqueness. -/
theorem C2_amended :
    (∀ (url tribe : String) (now : Nat) (rows : List SrcRow),
      (((add_source url tribe now rows).2).map (fun r => r.url)).Nodup)
    ∧ ∀ (now : Nat) (rows : List SrcRow),
      ((list_sources_file now rows).map (fun r => r.url)).Nodup :=
  ⟨fun _ _ now _ => ensure_rows_url_nodup now _,
   fun now rows => ensure_rows_url_nodup now rows⟩

/-- Claim C6 (counterexample): the file backend's `list_sources` sorts by
(lowercased tribe, lowercased url), not by creation time: of two rows created
at times 1 and 2 it returns the later-created one first because its tribe
sorts lower, so the result is not ordered by `created_at`. -/
theorem C6_counterexample :
    ((list_sources_file 5 [⟨"i1", "b.com", "Z", 1⟩, ⟨"i2", "a.com", "A", 2⟩]).map
        (fun r => r.created_ts) = [2, 1])
    ∧ ¬ List.Sorted (fun a b : Nat => a ≤ b)
        ((list_sources_file 5 [⟨"i1", "b.com", "Z", 1⟩, ⟨"i2", "a.com", "A", 2⟩]).map
          (fun r => r.created_ts)) := by
  decide

/-- Claim C6 (amended): the Postgres backend's `list_sources` returns the
table ordered by `created_ts` ascending with ties broken by `id` (and is a
permutation of the table); the file backend instead orders by
(lowercased tribe, lowercased url). -/
theorem C6_amended :
    (∀ tbl : List SrcRow,
      List.Sorted pgKeyLe (pg_list_sources tbl) ∧ (pg_list_sources tbl).Perm tbl)
    ∧ ∀ (now : Nat) (rows : List SrcRow),
      List.Sorted fileKeyLe (list_sources_file now rows) :=
  ⟨fun tbl => ⟨List.sorted_insertionSort pgKeyLe tbl, List.perm_insertionSort pgKeyLe tbl⟩,
   fun _ _ => List.sorted_insertionSort fileKeyLe _⟩

-- ---------------------------------------------------------------------------
-- C9
-- ---------------------------------------------------------------------------

theorem statsSearch_isSome_iff (l : List Char) :
    (statsSearch l).isSome = true ↔ ∃ i, (statsMatchAt (l.drop i)).isSome = true := by
  induction l with
  | nil =>
    simp only [statsSearch, Option.isSome_none, Bool.false_eq_true, false_iff]
    intro ⟨i, hi⟩
    simp [List.drop_nil, statsMatchAt, expectCI] at hi
  | cons c rest ih =>
    rw [statsSearch]
    cases hm : statsMatchAt (c :: rest) with
    | some v =>
      simp only [Option.isSome_some, true_iff]
      exact ⟨0, by simp [hm]⟩
    | none =>
      rw [ih]
      constructor
      · intro ⟨i, hi⟩
        exact ⟨i + 1, by simpa using hi⟩
      · intro ⟨i, hi⟩
        cases i with
        | zero => rw [List.drop_zero] at hi; rw [hm] at hi; simp at hi
        | succ j => exact ⟨j, by simpa using hi⟩

/-- Claim C9 (confirmed): for every display string the Annotation Parser
returns either all three of (response_count, min_value, max_value) or none of
them; the populated case happens exactly when some position of the string
matches the `Min: <number>, Max: <number>, <integer> Response(s)` grammar
(`statsMatchAt`, the embedding of `STATS_RE`); the empty string yields
(absent, absent, absent); and the function is total, so no input raises. -/
theorem C9_confirmed :
    ∀ fmt : String,
      (parse_stats fmt = (none, none, none) ∨
        ∃ r mn mx, parse_stats fmt = (some r, some mn, some mx))
      ∧ ((parse_stats fmt).1.isSome = true ↔
          ∃ i, (statsMatchAt (fmt.data.drop i)).isSome = true)
      ∧ parse_stats ("") = (none, none, none) := by
  intro fmt
  refine ⟨?_, ?_, by decide⟩
  · unfold parse_stats
    split
    · exact Or.inl rfl
    · cases h : statsSearch fmt.data with
      | none => exact Or.inl rfl
      | some v =>
        obtain ⟨mn, mx, resp⟩ := v
        exact Or.inr ⟨resp, mn, mx, rfl⟩
  · rw [← statsSearch_isSome_iff]
    unfold parse_stats
    split
    · rename_i h
      subst h
      simp [statsSearch]
    · cases h : statsSearch fmt.data with
      | none => simp [h]
      | some v => simp [h]

-- ---------------------------------------------------------------------------
-- C8
-- ---------------------------------------------------------------------------

theorem recsOfCells_team_mem (date tribe : String) (cells : PyVal) :
    ∀ (labels : List String) (j : Nat) (recs : List Record),
      recsOfCells date tribe cells labels j = .ok recs →
      ∀ r ∈ recs, r.team ∈ labels := by
  intro labels
  induction labels with
  | nil =>
    intro j recs h r hr
    rw [recsOfCells] at h
    simp only [Except.ok.injEq] at h
    subst h
    simp at hr
  | cons team rest ih =>
    intro j recs h r hr
    rw [recsOfCells] at h
    split at h
    · exact absurd h (by simp)
    · split at h
      · exact List.mem_cons_of_mem _ (ih _ _ h r hr)
      · split at h
        · exact absurd h (by simp)
        · split at h
          · split at h
            · exact List.mem_cons_of_mem _ (ih _ _ h r hr)
            · split at h
              · exact absurd h (by simp)
              · split at h
                · exact absurd h (by simp)
                · rename_i recs' hrec'
                  split at h
                  · simp only [Except.ok.injEq] at h
                    subst h
                    rcases List.mem_cons.mp hr with h1 | h2
                    · rw [h1]; exact List.mem_cons_self _ _
                    · exact List.mem_cons_of_mem _ (ih _ _ hrec' r h2)
                  · simp only [Except.ok.injEq] at h
                    subst h
                    exact List.mem_cons_of_mem _ (ih _ _ hrec' r hr)
          · exact List.mem_cons_of_mem _ (ih _ _ h r hr)

theorem recsOfRow_team_mem (today tribe : String) (labels : List String)
    (row : PyVal) (recs : List Record)
    (h : recsOfRow today tribe labels row = .ok recs) :
    ∀ r ∈ recs, r.team ∈ labels := by
  intro r hr
  unfold recsOfRow at h
  split at h
  · exact absurd h (by simp)
  · split at h
    · split at h
      · exact absurd h (by simp)
      · split at h
        · exact absurd h (by simp)
        · exact recsOfCells_team_mem _ _ _ _ _ _ h r hr
    · simp only [Except.ok.injEq] at h
      subst h
      simp at hr

theorem recsOfRows_team_mem (today tribe : String) (labels : List String) :
    ∀ (rows : List PyVal) (recs : List Record),
      recsOfRows today tribe labels rows = .ok recs →
      ∀ r ∈ recs, r.team ∈ labels := by
  intro rows
  induction rows with
  | nil =>
    intro recs h r hr
    rw [recsOfRows] at h
    simp only [Except.ok.injEq] at h
    subst h
    simp at hr
  | cons row rest ih =>
    intro recs h r hr
    rw [recsOfRows] at h
    split at h
    · exact absurd h (by simp)
    · rename_i rs hrow
      split at h
      · exact absurd h (by simp)
      · rename_i more hmore
        simp only [Except.ok.injEq] at h
        subst h
        rcases List.mem_append.mp hr with h1 | h2
        · exact recsOfRow_team_mem _ _ _ _ _ hrow r h1
        · exact ih _ hmore r h2

/-- Claim C8 (counterexample): dropping the trailing "average" label does not
stop records with that same team label from being emitted — when another
column derives an equal label, the Record Builder still emits it.  Here the
last derived label is "Average" (which trims and lowercases to "average"),
yet the output contains a Record whose team is exactly that label. -/
theorem C8_counterexample :
    (deriveLabels (.vlist [.vdict [("label", .vstr ("Date"))],
        .vdict [("label", .vstr ("Average"))], .vdict [("label", .vstr ("Average"))]])
      = .ok ["Average", "Average"])
    ∧ pyLower (pyStrip ("Average")) = "average"
    ∧ rows_to_records ("1970-01-01")
        [("cols", .vlist [.vdict [("label", .vstr ("Date"))],
            .vdict [("label", .vstr ("Average"))], .vdict [("label", .vstr ("Average"))]]),
         ("rows", .vlist [.vdict [("c", .vlist [.vdict [("v", .vstr ("Date(2024, 0, 5)"))],
            .vdict [("v", .vint 1)], .vdict [("v", .vint 2)]])]])]
        ("t")
      = .ok [⟨"2024-01-05", "Average", 1, "t", none, none, none⟩] := by
  refine ⟨by decide, by decide, by decide⟩

/-- Claim C8 (amended): when the last derived team label trims and lowercases
to "average", the Record Builder emits no record from the last column — every
emitted team label comes from the remaining columns — so as long as no other
column derives that same label, no emitted Record carries it. -/
theorem C8_amended (payload : List (String × PyVal)) (tribe today : String)
    (labels0 : List String) (last : String) (recs : List Record)
    (hL : deriveLabels (dictGetD payload "cols" (.vlist [])) = .ok labels0)
    (hlast : labels0.getLastD "" = last)
    (havg : pyLower (pyStrip last) = "average")
    (hsolo : last ∉ labels0.dropLast)
    (hrun : rows_to_records today payload tribe = .ok recs) :
    ∀ r ∈ recs, r.team ≠ last := by
  intro r hr
  have hnil : labels0 ≠ [] := by
    intro hn
    rw [hn] at hlast
    simp only [List.getLastD_nil] at hlast
    rw [← hlast] at havg
    exact absurd havg (by decide)
  simp only [rows_to_records] at hrun
  split at hrun
  · split at hrun
    · exact absurd hrun (by simp)
    · rename_i ls hls
      rw [hls] at hL
      simp only [Except.ok.injEq] at hL
      subst hL
      split at hrun
      · exact absurd hrun (by simp)
      · have hmem := recsOfRows_team_mem _ _ _ _ _ hrun r hr
        rw [dropAverage, if_pos ⟨hnil, hlast ▸ havg⟩] at hmem
        intro he
        rw [he] at hmem
        exact hsolo hmem
  · simp only [Except.ok.injEq] at hrun
    subst hrun
    simp at hr

/-- Witness for C8_amended: the last label is "Average" and unique, so the
single emitted record (from the "A" column) does not carry it. -/
theorem C8_witness :
    (⟨"2024-01-05", "A", 1, "t", none, none, none⟩ : Record).team ≠ "Average" :=
  C8_amended
    [("cols", .vlist [.vdict [("label", .vstr ("Date"))],
        .vdict [("label", .vstr ("A"))], .vdict [("label", .vstr ("Average"))]]),
     ("rows", .vlist [.vdict [("c", .vlist [.vdict [("v", .vstr ("Date(2024, 0, 5)"))],
        .vdict [("v", .vint 1)], .vdict [("v", .vint 2)]])]])]
    ("t") ("1970-01-01") ["A", "Average"] ("Average")
    [⟨"2024-01-05", "A", 1, "t", none, none, none⟩]
    (by decide) (by decide) (by decide) (by decide) (by decide)
    ⟨"2024-01-05", "A", 1, "t", none, none, none⟩ (by decide)

-- ---------------------------------------------------------------------------
-- C7: arithmetic facts about decimal rendering and the date matcher
-- ---------------------------------------------------------------------------

theorem digCh_isDig (k : Nat) : isDig (digCh k) = true := by
  unfold digCh
  split <;> decide

theorem digVal_digCh (k : Nat) (h : k < 10) : digVal (digCh k) = k := by
  interval_cases k <;> decide

theorem isDig_not_space (c : Char) (h : isDig c = true) : pySpaceChar c = false := by
  unfold isDig at h
  unfold pySpaceChar
  simp only [decide_eq_true_eq] at h
  simp only [decide_eq_false_iff_not]
  omega

theorem natStrL_lt (n : Nat) (h : n < 10) : natStrL n = [digCh n] := by
  unfold natStrL
  rw [dif_pos h]

theorem natStrL_ge (n : Nat) (h : 10 ≤ n) :
    natStrL n = natStrL (n / 10) ++ [digCh (n % 10)] := by
  conv_lhs => rw [natStrL]
  rw [dif_neg (by omega)]

theorem natStrL_all_isDig (n : Nat) : (natStrL n).all isDig = true := by
  induction n using Nat.strong_induction_on with
  | _ n ih =>
    by_cases h : n < 10
    · rw [natStrL_lt n h]
      simp [digCh_isDig]
    · rw [natStrL_ge n (by omega), List.all_append]
      simp only [Bool.and_eq_true]
      exact ⟨ih (n / 10) (Nat.div_lt_self (by omega) (by omega)),
        by simp [digCh_isDig]⟩

theorem natStrL_ne_nil (n : Nat) : natStrL n ≠ [] := by
  by_cases h : n < 10
  · rw [natStrL_lt n h]; simp
  · rw [natStrL_ge n (by omega)]; simp

theorem digitsVal_append_single (l : List Char) (c : Char) :
    digitsVal (l ++ [c]) = digitsVal l * 10 + digVal c := by
  unfold digitsVal
  rw [List.foldl_append]
  rfl

theorem digitsVal_natStrL (n : Nat) : digitsVal (natStrL n) = n := by
  induction n using Nat.strong_induction_on with
  | _ n ih =>
    by_cases h : n < 10
    · rw [natStrL_lt n h]
      unfold digitsVal
      simp only [List.foldl_cons, List.foldl_nil]
      rw [digVal_digCh n h]
      omega
    · rw [natStrL_ge n (by omega), digitsVal_append_single,
        ih (n / 10) (Nat.div_lt_self (by omega) (by omega)),
        digVal_digCh (n % 10) (by omega)]
      omega

theorem natStrL_len1 (n : Nat) (h : n < 10) : (natStrL n).length = 1 := by
  rw [natStrL_lt n h]; rfl

theorem natStrL_len2 (n : Nat) (h1 : 10 ≤ n) (h2 : n ≤ 99) :
    (natStrL n).length = 2 := by
  rw [natStrL_ge n h1, List.length_append, natStrL_len1 (n / 10) (by omega)]
  rfl

theorem natStrL_len3 (n : Nat) (h1 : 100 ≤ n) (h2 : n ≤ 999) :
    (natStrL n).length = 3 := by
  rw [natStrL_ge n (by omega), List.length_append,
    natStrL_len2 (n / 10) (by omega) (by omega)]
  rfl

theorem natStrL_len4 (n : Nat) (h1 : 1000 ≤ n) (h2 : n ≤ 9999) :
    (natStrL n).length = 4 := by
  rw [natStrL_ge n (by omega), List.length_append,
    natStrL_len3 (n / 10) (by omega) (by omega)]
  rfl

theorem skipSpaces_cons_not_space (c : Char) (l : List Char)
    (h : pySpaceChar c = false) : skipSpaces (c :: l) = c :: l := by
  unfold skipSpaces
  rw [List.dropWhile_cons, h]
  simp

theorem skipSpaces_cons_space (c : Char) (l : List Char)
    (h : pySpaceChar c = true) : skipSpaces (c :: l) = skipSpaces l := by
  unfold skipSpaces
  rw [List.dropWhile_cons, h]
  simp

theorem skipSpaces_digits_append (l r : List Char) (hl : l.all isDig = true)
    (hne : l ≠ []) : skipSpaces (l ++ r) = l ++ r := by
  cases l with
  | nil => exact absurd rfl hne
  | cons c t =>
    simp only [List.all_cons, Bool.and_eq_true] at hl
    exact skipSpaces_cons_not_space c (t ++ r) (isDig_not_space c hl.1)

theorem digitRun_digits_append (l r : List Char) (hl : l.all isDig = true)
    (hr : ∀ c t, r = c :: t → isDig c = false) :
    digitRun (l ++ r) = (l, r) := by
  induction l with
  | nil =>
    cases r with
    | nil => rfl
    | cons c t =>
      simp only [List.nil_append]
      rw [digitRun, if_neg]
      rw [hr c t rfl]
      simp
  | cons c t ih =>
    simp only [List.all_cons, Bool.and_eq_true] at hl
    simp only [List.cons_append]
    rw [digitRun, if_pos (by rw [hl.1])]
    rw [ih hl.2]

theorem expectStr_append (p l : List Char) : expectStr p (p ++ l) = some l := by
  induction p with
  | nil => rfl
  | cons c t ih =>
    simp only [List.cons_append]
    rw [expectStr, if_pos rfl, ih]

theorem restCloseOk_ne_nil (tail : List Char) (h : restCloseOk tail = true) :
    tail ≠ [] := by
  intro hn
  rw [hn] at h
  simp [restCloseOk] at h

theorem matchDay_natStrL (d : Nat) (tail : List Char) (hd : d ≤ 99)
    (htail : restCloseOk tail = true)
    (hhead : ∀ c t, tail = c :: t → isDig c = false) :
    matchDay (natStrL d ++ tail) = some d := by
  by_cases h10 : d < 10
  · obtain ⟨c, t, htt⟩ : ∃ c t, tail = c :: t := by
      cases tail with
      | nil => exact absurd rfl (restCloseOk_ne_nil [] htail)
      | cons c t => exact ⟨c, t, rfl⟩
    rw [natStrL_lt d h10, htt]
    simp only [List.cons_append, List.nil_append]
    rw [matchDay]
    rw [if_neg (by
      rintro ⟨-, hc, -⟩
      rw [hhead c t htt] at hc
      exact absurd hc (by simp))]
    rw [if_pos ⟨by rw [digCh_isDig], by rw [← htt]; exact htail⟩]
    rw [digVal_digCh d h10]
  · rw [natStrL_ge d (by omega), natStrL_lt (d / 10) (by omega)]
    simp only [List.cons_append, List.nil_append]
    rw [matchDay, if_pos ⟨by rw [digCh_isDig], by rw [digCh_isDig], htail⟩]
    rw [digVal_digCh (d / 10) (by omega), digVal_digCh (d % 10) (by omega)]
    congr 1
    omega

theorem dateMatchL_dateLitT (y m d : Nat) (tail : List Char)
    (hy1 : 1000 ≤ y) (hy2 : y ≤ 9999) (hm : m ≤ 11) (hd : d ≤ 99)
    (htail : restCloseOk tail = true)
    (hhead : ∀ c t, tail = c :: t → isDig c = false) :
    dateMatchL (dateLitT y m d tail).data = some (y, m, d) := by
  have hsd : (dateLitT y m d tail).data
      = 'D' :: 'a' :: 't' :: 'e' :: '(' ::
        (natStrL y ++ (',' :: ' ' :: (natStrL m ++ (',' :: ' ' :: (natStrL d ++ tail))))) := by
    show ['D', 'a', 't', 'e', '('] ++ natStrL y ++ [',', ' '] ++ natStrL m
        ++ [',', ' '] ++ natStrL d ++ tail = _
    simp
  rw [dateMatchL, hsd]
  rw [skipSpaces_cons_not_space _ _ (by decide)]
  have e2 : expectStr (['D', 'a', 't', 'e', '('])
      ('D' :: 'a' :: 't' :: 'e' :: '(' ::
        (natStrL y ++ (',' :: ' ' :: (natStrL m ++ (',' :: ' ' :: (natStrL d ++ tail))))))
      = some (natStrL y ++ (',' :: ' ' :: (natStrL m ++ (',' :: ' ' :: (natStrL d ++ tail))))) :=
    expectStr_append _ _
  have hylen : (natStrL y).length = 4 := natStrL_len4 y hy1 hy2
  have e3 : (natStrL y ++ (',' :: ' ' :: (natStrL m ++ (',' :: ' ' :: (natStrL d ++ tail))))).take 4
      = natStrL y := by
    rw [← hylen]
    exact List.take_left _ _
  have e4 : (natStrL y ++ (',' :: ' ' :: (natStrL m ++ (',' :: ' ' :: (natStrL d ++ tail))))).drop 4
      = ',' :: ' ' :: (natStrL m ++ (',' :: ' ' :: (natStrL d ++ tail))) := by
    rw [← hylen]
    exact List.drop_left _ _
  simp only [e2, e3, e4]
  rw [if_pos ⟨hylen, natStrL_all_isDig y⟩]
  have e6 : expectStr ([','])
      (',' :: ' ' :: (natStrL m ++ (',' :: ' ' :: (natStrL d ++ tail))))
      = some (' ' :: (natStrL m ++ (',' :: ' ' :: (natStrL d ++ tail)))) := rfl
  have e7 : skipSpaces (' ' :: (natStrL m ++ (',' :: ' ' :: (natStrL d ++ tail))))
      = natStrL m ++ (',' :: ' ' :: (natStrL d ++ tail)) := by
    rw [skipSpaces_cons_space _ _ (by decide)]
    exact skipSpaces_digits_append _ _ (natStrL_all_isDig m) (natStrL_ne_nil m)
  have e8 := digitRun_digits_append (natStrL m) (',' :: ' ' :: (natStrL d ++ tail))
    (natStrL_all_isDig m) (by intro c t h; cases h; decide)
  simp only [e6, e7, e8]
  have hmlen : (natStrL m).length = 1 ∨ (natStrL m).length = 2 := by
    by_cases h : m < 10
    · exact Or.inl (natStrL_len1 m h)
    · exact Or.inr (natStrL_len2 m (by omega) (by omega))
  rw [if_pos hmlen]
  have e9 : expectStr ([',']) (',' :: ' ' :: (natStrL d ++ tail))
      = some (' ' :: (natStrL d ++ tail)) := rfl
  have e10 : skipSpaces (' ' :: (natStrL d ++ tail)) = natStrL d ++ tail := by
    rw [skipSpaces_cons_space _ _ (by decide)]
    exact skipSpaces_digits_append _ _ (natStrL_all_isDig d) (natStrL_ne_nil d)
  simp only [e9, e10, matchDay_natStrL d tail hd htail hhead, digitsVal_natStrL]

/-- Claim C7 (counterexample): the claim quantifies over every year, but the
regex requires exactly four year digits: the literal for year 50,
`Date(50, 0, 1)`, is rejected (None) instead of mapping to `0050-01-01`. -/
theorem C7_counterexample :
    dateLit 50 0 1 = "Date(50, 0, 1)"
    ∧ date_from_cell (.vstr ("Date(50, 0, 1)")) = none
    ∧ ¬ date_from_cell (.vstr ("Date(50, 0, 1)")) = some ("0050-01-01") := by
  have h50 : natStrL 50 = ['5', '0'] := by
    rw [natStrL_ge 50 (by omega), natStrL_lt 5 (by omega)]
    decide
  have h0 : natStrL 0 = ['0'] := natStrL_lt 0 (by omega)
  have h1 : natStrL 1 = ['1'] := natStrL_lt 1 (by omega)
  refine ⟨?_, by decide, by decide⟩
  show dateLitT 50 0 1 [')'] = _
  unfold dateLitT
  rw [h50, h0, h1]
  rfl

/-- Claim C7 (amended): for every year rendered with exactly four digits
(1000–9999), month in [0, 11] and day rendered with at most two digits
(0–99), the Date Decoder maps the literal `Date(Y, M, D…` — any trailing
components that contain no newline, end with `)` and start with a non-digit
are ignored — to `YYYY-MM-DD` with the month incremented and zero-padded to
two digits.  A day of three or more digits is not rejected: the day group
captures only its first two digits, so `Date(2024, 0, 123)` decodes to
`2024-01-12` (truncated).  Every non-string value yields "not a date"
(None). -/
theorem C7_amended :
    (∀ (y m d : Nat) (tail : List Char),
      1000 ≤ y → y ≤ 9999 → m ≤ 11 → d ≤ 99 →
      restCloseOk tail = true →
      (∀ c t, tail = c :: t → isDig c = false) →
      date_from_cell (.vstr (dateLitT y m d tail))
        = some (pad4 y ++ "-" ++ pad2 (m + 1) ++ "-" ++ pad2 d))
    ∧ date_from_cell (.vstr ("Date(2024, 0, 123)")) = some ("2024-01-12")
    ∧ ∀ v : PyVal, (∀ s, v ≠ .vstr s) → date_from_cell v = none := by
  refine ⟨?_, by decide, ?_⟩
  · intro y m d tail hy1 hy2 hm hd htail hhead
    simp only [date_from_cell]
    rw [dateMatchL_dateLitT y m d tail hy1 hy2 hm hd htail hhead]
    rfl
  · intro v hv
    cases v with
    | vstr s => exact absurd rfl (hv s)
    | vnone => rfl
    | vbool b => rfl
    | vint n => rfl
    | vnum q => rfl
    | vlist xs => rfl
    | vdict kvs => rfl

/-- Witness for C7_amended at `Date(2024, 0, 5)`: January 5th, 2024. -/
theorem C7_witness :
    date_from_cell (.vstr (dateLitT 2024 0 5 ([')'])))
      = some (pad4 2024 ++ "-" ++ pad2 (0 + 1) ++ "-" ++ pad2 5)
    ∧ dateLitT 2024 0 5 ([')']) = "Date(2024, 0, 5)"
    ∧ pad4 2024 ++ "-" ++ pad2 (0 + 1) ++ "-" ++ pad2 5 = "2024-01-05"
    ∧ date_from_cell .vnone = none := by
  refine ⟨C7_amended.1 2024 0 5 ([')']) (by omega) (by omega) (by omega) (by omega)
      (by decide) (by intro c t h; cases h; decide), ?_, by decide,
    C7_amended.2.2 .vnone (by intro s h; cases h)⟩
  have h2024 : natStrL 2024 = ['2', '0', '2', '4'] := by
    rw [natStrL_ge 2024 (by omega), natStrL_ge 202 (by omega),
      natStrL_ge 20 (by omega), natStrL_lt 2 (by omega)]
    decide
  have h0 : natStrL 0 = ['0'] := natStrL_lt 0 (by omega)
  have h5 : natStrL 5 = ['5'] := natStrL_lt 5 (by omega)
  unfold dateLitT
  rw [h2024, h0, h5]
  rfl
